import Mathlib

/-!
# Verification of the Ambilight LED driver core

Shallow embedding of `cpp/src/led_driver.cpp` and `cpp/src/ipc_server.cpp`.

Modelling conventions:
* C++ `float` values are modelled as exact rationals (`ℚ`); the source's
  arithmetic (`+ 0.5f` rounding, `std::clamp`, EMA smoothing) is translated
  literally over `ℚ`.
* `powf` is transcendental, so the model is parametrised by an abstract
  power function `pw : ℚ → ℚ → ℚ` standing for `powf`; theorems that need a
  concrete gamma instantiate `pw` (e.g. `pw x 1 = x`, exact for `powf`).
* `uint8_t` buffers are `List Nat` (values 0..255), `int` is `Int`.
* SPI I/O, `perror` logging and the latch `usleep` are effect-free for the
  driver state and are dropped; `show()`'s state effect is its call to
  `applyGammaAndBrightness`.
* The class header of `LEDDriver` is not present in the sources; field types
  are reconstructed from their uses in `led_driver.cpp` (`lastFloatBuffer_`
  floats, `buffer_`/`lastBuffer_` byte vectors, `gammaLUT_` float-valued,
  matching `float gammaed = gammaLUT_[idx] * brightness_`).
-/

/-- truncation toward zero, the semantics of C++ `static_cast<int>` on a
floating value. -/
def ftoi (x : ℚ) : Int :=
  if 0 ≤ x then ⌊x⌋ else -⌊-x⌋

/-- `clamp255` from led_driver.cpp: clamp an `int` to a `uint8_t`. -/
def clamp255 (v : Int) : Nat :=
  if v < 0 then 0 else if v > 255 then 255 else v.toNat

/-- `std::clamp(v, lo, hi)`. -/
def cppClamp (v lo hi : ℚ) : ℚ :=
  if v < lo then lo else if hi < v then hi else v

/-- State of a `LEDDriver` object: the fields of the class that the
member functions in `led_driver.cpp` read or write (SPI fd omitted). -/
structure LEDDriver where
  numLeds_ : Nat
  buffer_ : List Nat
  lastBuffer_ : List Nat
  lastFloatBuffer_ : List ℚ
  gammaLUT_ : List ℚ
  gamma_ : ℚ
  brightness_ : ℚ
  smoothingAlpha_ : ℚ
  deriving DecidableEq

/-- `LEDDriver::buildGammaLUT`: store `gamma`, rebuild the 256-entry table
with `gammaLUT_[i] = powf(i/255, gamma) * 255`. -/
def buildGammaLUT (pw : ℚ → ℚ → ℚ) (gamma : ℚ) (s : LEDDriver) : LEDDriver :=
  { s with
    gamma_ := gamma
    gammaLUT_ := (List.range 256).map (fun i : ℕ => pw ((i : ℚ) / 255) gamma * 255) }

/-- One channel of `LEDDriver::applyGammaAndBrightness`: clamp the float to
[0,255], round (`+0.5` then truncate) to a LUT index clamped to [0,255],
scale the LUT entry by brightness, round and clamp to a byte. -/
def shapeChannel (lut : List ℚ) (bright : ℚ) (v : ℚ) : Nat :=
  let val := if v < 0 then 0 else if v > 255 then 255 else v
  let idx : Int := ftoi (val + 1/2)
  let idx : Int := if idx < 0 then 0 else if idx > 255 then 255 else idx
  let gammaed := lut.getD idx.toNat 0 * bright
  let out : Int := ftoi (gammaed + 1/2)
  clamp255 out

/-- `LEDDriver::applyGammaAndBrightness`: recompute `buffer_[i]` from
`lastFloatBuffer_[i]` for every `i < buffer_.size()`. -/
def applyGammaAndBrightness (s : LEDDriver) : LEDDriver :=
  { s with
    buffer_ := (List.range s.buffer_.length).map
      (fun i => shapeChannel s.gammaLUT_ s.brightness_ (s.lastFloatBuffer_.getD i 0)) }

/-- `LEDDriver::doSmoothing`: on size mismatch log and return unchanged;
otherwise EMA step `l = l + a*(n - l)` with `a` the alpha clamped to [0,1]. -/
def doSmoothing (newbuf : List Nat) (s : LEDDriver) : LEDDriver :=
  if newbuf.length ≠ s.lastFloatBuffer_.length then s
  else
    let a := cppClamp s.smoothingAlpha_ 0 1
    { s with
      lastFloatBuffer_ :=
        (s.lastFloatBuffer_.zip newbuf).map (fun p => p.1 + a * ((p.2 : ℚ) - p.1)) }

/-- `LEDDriver::setAll`: write (r,g,b) into every slot of the float buffer,
then apply gamma and brightness. -/
def setAll (r g b : Nat) (s : LEDDriver) : LEDDriver :=
  applyGammaAndBrightness
    { s with
      lastFloatBuffer_ :=
        (List.range s.numLeds_).foldl
          (fun buf i =>
            ((buf.set (i * 3) (r : ℚ)).set (i * 3 + 1) (g : ℚ)).set (i * 3 + 2) (b : ℚ))
          s.lastFloatBuffer_ }

/-- `LEDDriver::setPixel`: index outside [0, numLeds_) returns immediately;
otherwise write one slot and apply gamma and brightness. -/
def setPixel (idx : Int) (r g b : Nat) (s : LEDDriver) : LEDDriver :=
  if idx < 0 ∨ (s.numLeds_ : Int) ≤ idx then s
  else
    let off := idx.toNat * 3
    applyGammaAndBrightness
      { s with
        lastFloatBuffer_ :=
          ((s.lastFloatBuffer_.set off (r : ℚ)).set (off + 1) (g : ℚ)).set (off + 2) (b : ℚ) }

/-- `LEDDriver::show`: refresh `buffer_` via `applyGammaAndBrightness`, then
write it to SPI (the write and the latch delay have no state effect). -/
def showOut (s : LEDDriver) : LEDDriver :=
  applyGammaAndBrightness s

/-- `LEDDriver::clear`: zero the float buffer and the byte buffer, then
`show()` immediately. -/
def clear (s : LEDDriver) : LEDDriver :=
  showOut
    { s with
      lastFloatBuffer_ := s.lastFloatBuffer_.map (fun _ => (0 : ℚ))
      buffer_ := s.buffer_.map (fun _ => 0) }

/-- `LEDDriver::setGamma`: refuse `gamma <= 0.01`; otherwise rebuild the LUT
and reshape the output. -/
def setGamma (pw : ℚ → ℚ → ℚ) (gamma : ℚ) (s : LEDDriver) : LEDDriver :=
  if gamma ≤ 1/100 then s
  else applyGammaAndBrightness (buildGammaLUT pw gamma s)

/-- `LEDDriver::setBrightness`: clamp to [0,1] and reshape the output. -/
def setBrightness (brightness : ℚ) (s : LEDDriver) : LEDDriver :=
  applyGammaAndBrightness { s with brightness_ := cppClamp brightness 0 1 }

/-- `LEDDriver::setSmoothingAlpha`: clamp to [0,1]; no reshape. -/
def setSmoothingAlpha (alpha : ℚ) (s : LEDDriver) : LEDDriver :=
  { s with smoothingAlpha_ := cppClamp alpha 0 1 }

/-- `LEDDriver::LEDDriver`: `numLeds_ = max(1, num_leds)`, byte buffers and
float buffer of length `numLeds_ * 3`, gamma 2.2, brightness 1, alpha 0.25;
then build the LUT, `clear()` and `show()` (SPI open elided). -/
def mkLEDDriver (pw : ℚ → ℚ → ℚ) (num_leds : Int) : LEDDriver :=
  let n : Nat := (max 1 num_leds).toNat
  let s : LEDDriver :=
    { numLeds_ := n
      buffer_ := List.replicate (n * 3) 0
      lastBuffer_ := List.replicate (n * 3) 0
      lastFloatBuffer_ := List.replicate (n * 3) (0 : ℚ)
      gammaLUT_ := []
      gamma_ := 11/5
      brightness_ := 1
      smoothingAlpha_ := 1/4 }
  showOut (clear (buildGammaLUT pw (11/5) s))

/-! ## Command parsing (`std::istringstream` extraction, `stoi`, `stof`) -/

/-- whitespace as skipped by stream extraction. -/
def isWs (c : Char) : Bool :=
  c = ' ' || c = '\t' || c = '\n' || c = '\r'

/-- skip leading whitespace (stream extraction always does). -/
def skipWs : List Char → List Char
  | [] => []
  | c :: cs => if isWs c then skipWs cs else c :: cs

/-- `iss >> token` for a `std::string`: skip whitespace, read a maximal
non-whitespace run; fails at end of input. -/
def readTok (cs : List Char) : Option (List Char × List Char) :=
  let cs1 := skipWs cs
  let t := cs1.takeWhile (fun c => !isWs c)
  if t = [] then none else some (t, cs1.dropWhile (fun c => !isWs c))

/-- numeric value of a digit run. -/
def digitsVal (ds : List Char) : Nat :=
  ds.foldl (fun a c => a * 10 + (c.toNat - 48)) 0

/-- maximal digit run and its value; fails when there is no digit. -/
def readDigits (cs : List Char) : Option (Nat × List Char) :=
  let ds := cs.takeWhile Char.isDigit
  if ds = [] then none else some (digitsVal ds, cs.dropWhile Char.isDigit)

/-- `iss >> (int)` and `std::stoi`: skip whitespace, optional sign, at least
one digit; stops at the first non-digit. -/
def readIntC (cs : List Char) : Option (Int × List Char) :=
  match skipWs cs with
  | '-' :: rest => (readDigits rest).map (fun p => (-(p.1 : Int), p.2))
  | '+' :: rest => (readDigits rest).map (fun p => ((p.1 : Int), p.2))
  | rest => (readDigits rest).map (fun p => ((p.1 : Int), p.2))

/-- `iss >> (float)` and `std::stof` on decimal input: skip whitespace,
optional sign, digits with an optional fractional part; at least one digit
overall (exponent forms are not used by the protocol and not modelled). -/
def readFloatC (cs : List Char) : Option (ℚ × List Char) :=
  let go : List Char → Option (ℚ × List Char) := fun cs1 =>
    let ds := cs1.takeWhile Char.isDigit
    let r1 := cs1.dropWhile Char.isDigit
    match r1 with
    | '.' :: r2 =>
        let fs := r2.takeWhile Char.isDigit
        let r3 := r2.dropWhile Char.isDigit
        if ds = [] ∧ fs = [] then none
        else some ((digitsVal ds : ℚ) + (digitsVal fs : ℚ) / 10 ^ fs.length, r3)
    | _ => if ds = [] then none else some ((digitsVal ds : ℚ), r1)
  match skipWs cs with
  | '-' :: rest => (go rest).map (fun p => (-p.1, p.2))
  | '+' :: rest => (go rest).map (fun p => (p.1, p.2))
  | rest => (go rest).map (fun p => (p.1, p.2))

/-- The fresh buffer the `COLOR` branch fills: `numLeds_*3` zero bytes, then
slot `i` gets the clamped `(r,g,b)`. -/
def colorNewbuf (n : Nat) (r g b : Int) : List Nat :=
  (List.range n).foldl
    (fun buf i =>
      ((buf.set (i * 3) (clamp255 r)).set (i * 3 + 1) (clamp255 g)).set (i * 3 + 2) (clamp255 b))
    (List.replicate (n * 3) 0)

/-- `LEDDriver::handleCommand`: tokenize the line and dispatch. Branches
whose argument extraction fails leave the state unchanged (the code skips
the body; `stoi`/`stof` throws are swallowed by `catch (...)`). `STATUS`
and unknown commands only log. -/
def handleCommand (pw : ℚ → ℚ → ℚ) (cmd : List Char) (s : LEDDriver) : LEDDriver :=
  match readTok cmd with
  | none => s
  | some (token, rest) =>
    if token = "COLOR".data then
      match readIntC rest with
      | none => s
      | some (r, rest1) =>
        match readIntC rest1 with
        | none => s
        | some (g, rest2) =>
          match readIntC rest2 with
          | none => s
          | some (b, _) =>
            showOut (applyGammaAndBrightness (doSmoothing (colorNewbuf s.numLeds_ r g b) s))
    else if token = "PIX".data then
      match readIntC rest with
      | none => s
      | some (idx, rest1) =>
        match readIntC rest1 with
        | none => s
        | some (r, rest2) =>
          match readIntC rest2 with
          | none => s
          | some (g, rest3) =>
            match readIntC rest3 with
            | none => s
            | some (b, _) =>
              showOut (setPixel idx (clamp255 r) (clamp255 g) (clamp255 b) s)
    else if token = "BRIGHT".data then
      match readTok rest with
      | none => s
      | some (val, _) =>
        if '.' ∈ val then
          match readFloatC val with
          | none => s
          | some (bq, _) => showOut (applyGammaAndBrightness (setBrightness bq s))
        else
          match readIntC val with
          | none => s
          | some (bi, _) =>
            if 1 < bi then
              showOut (applyGammaAndBrightness (setBrightness (cppClamp ((bi : ℚ) / 100) 0 1) s))
            else
              showOut (applyGammaAndBrightness (setBrightness (cppClamp (bi : ℚ) 0 1) s))
    else if token = "GAMMA".data then
      match readFloatC rest with
      | none => s
      | some (gq, _) => showOut (applyGammaAndBrightness (setGamma pw gq s))
    else if token = "SMOOTH".data then
      match readFloatC rest with
      | none => s
      | some (aq, _) => setSmoothingAlpha aq s
    else if token = "SHOW".data then showOut s
    else if token = "CLEAR".data then clear s
    else s

/-! ## IPC server read loop (`runIPCServer` in ipc_server.cpp) -/

/-- a list that contains an element on which the predicate is false has a
non-empty `dropWhile`. -/
theorem dropWhile_ne_nil_of_mem {α : Type} (p : α → Bool) (l : List α) (a : α)
    (ha : a ∈ l) (hpa : p a = false) : l.dropWhile p ≠ [] := by
  induction l with
  | nil => cases ha
  | cons c cs ih =>
    rcases List.mem_cons.mp ha with h | h
    · subst h
      simp [List.dropWhile, hpa]
    · by_cases hc : p c
      · simpa [List.dropWhile, hc] using ih h
      · simp [List.dropWhile, hc]

/-- `dropWhile` never lengthens a list. -/
theorem length_dropWhile_le {α : Type} (p : α → Bool) (l : List α) :
    (l.dropWhile p).length ≤ l.length := by
  induction l with
  | nil => simp [List.dropWhile]
  | cons c cs ih =>
    by_cases hc : p c
    · simp only [List.dropWhile, hc]
      exact Nat.le_succ_of_le ih
    · simp [List.dropWhile, hc]

/-- The inner `while ((pos = cmd.find('\n')) != npos)` loop: take the text
before the first newline as a line, erase it (newline included), repeat;
return the dispatched lines in order and the remaining accumulator. -/
def drainLines (cs : List Char) : List (List Char) × List Char :=
  if h : '\n' ∈ cs then
    let line := cs.takeWhile (fun c => c ≠ '\n')
    let rest := (cs.dropWhile (fun c => c ≠ '\n')).tail
    let p := drainLines rest
    (line :: p.1, p.2)
  else ([], cs)
termination_by cs.length
decreasing_by
  have hne : cs.dropWhile (fun c => c ≠ '\n') ≠ [] :=
    dropWhile_ne_nil_of_mem _ cs '\n' h (by simp)
  have h1 : (cs.dropWhile (fun c => c ≠ '\n')).tail.length
      = (cs.dropWhile (fun c => c ≠ '\n')).length - 1 := List.length_tail _
  have h2 : 0 < (cs.dropWhile (fun c => c ≠ '\n')).length :=
    List.length_pos.mpr hne
  have h3 : (cs.dropWhile (fun c => c ≠ '\n')).length ≤ cs.length :=
    length_dropWhile_le _ _
  omega

/-- One `read()` returning a chunk: append it to the accumulator and drain
all complete lines; carries (dispatched lines so far, accumulator). -/
def feedStep (st : List (List Char) × List Char) (chunk : List Char) :
    List (List Char) × List Char :=
  let p := drainLines (st.2 ++ chunk)
  (st.1 ++ p.1, p.2)

/-- The whole connection read loop over a sequence of received chunks,
starting from an empty accumulator. -/
def feedChunks (chunks : List (List Char)) : List (List Char) × List Char :=
  chunks.foldl feedStep ([], [])

/-! ## Lock-acquisition traces (concurrency structure of led_driver.cpp)

`mutex_` is a `std::mutex` (every guard in the file is
`std::lock_guard<std::mutex>`), which is not recursive: acquiring it again
on the thread that already holds it is undefined behaviour (in practice a
deadlock). Each public operation is abstracted to its sequence of lock
events on `mutex_`, read off the source. -/

/-- a lock event on `mutex_`. -/
inductive LockEv where
  | acq : LockEv
  | rel : LockEv
  deriving DecidableEq

/-- `applyGammaAndBrightness` body: guarded by `lock_guard` start to end. -/
def applyTrace : List LockEv := [LockEv.acq, LockEv.rel]

/-- `doSmoothing` body: guarded start to end, no nested locking call. -/
def doSmoothingTrace : List LockEv := [LockEv.acq, LockEv.rel]

/-- `show()`: calls `applyGammaAndBrightness` without holding the lock. -/
def showTrace : List LockEv := applyTrace

/-- `setAll`: takes the guard, then calls `applyGammaAndBrightness` before
the guard is released. -/
def setAllTrace : List LockEv := LockEv.acq :: applyTrace ++ [LockEv.rel]

/-- `setPixel` with an in-range index: guard, then nested
`applyGammaAndBrightness`. -/
def setPixelTrace : List LockEv := LockEv.acq :: applyTrace ++ [LockEv.rel]

/-- `setGamma` with `gamma > 0.01`: guard, `buildGammaLUT` (no lock), then
nested `applyGammaAndBrightness`. -/
def setGammaTrace : List LockEv := LockEv.acq :: applyTrace ++ [LockEv.rel]

/-- `setBrightness`: guard, then nested `applyGammaAndBrightness`. -/
def setBrightnessTrace : List LockEv := LockEv.acq :: applyTrace ++ [LockEv.rel]

/-- `clear`: guard, then `show()` (hence `applyGammaAndBrightness`) before
the guard is released. -/
def clearTrace : List LockEv := LockEv.acq :: showTrace ++ [LockEv.rel]

/-- the `COLOR` branch of `handleCommand`: `doSmoothing`, then
`applyGammaAndBrightness`, then `show()`, each taking the lock separately. -/
def colorCommandTrace : List LockEv := doSmoothingTrace ++ applyTrace ++ showTrace

/-- run a single thread's event list against a non-recursive mutex with
`held` owned acquisitions: a second `acq` while one is held is the
undefined re-entrant lock (modelled as deadlock). -/
def deadlocksFrom : Nat → List LockEv → Bool
  | _, [] => false
  | held, LockEv.acq :: evs => if held > 0 then true else deadlocksFrom (held + 1) evs
  | held, LockEv.rel :: evs => deadlocksFrom (held - 1) evs

/-- a trace self-deadlocks when, starting with the mutex free, it acquires
the mutex it already holds. -/
def selfDeadlocks (t : List LockEv) : Bool := deadlocksFrom 0 t

/-! ## Auxiliary definitions for concrete instances -/

/-- an exact power function agreeing with `x^gamma` at `gamma = 2`
(`powf` computes, up to rounding, exactly this square). -/
def sqPow : ℚ → ℚ → ℚ := fun x _ => x * x

/-- the identity-exponent power function: `pw x 1 = x`, which the IEEE
`powf` also satisfies exactly. -/
def idPow : ℚ → ℚ → ℚ := fun x _ => x

/-- a minimal concrete driver state used to instantiate theorems. -/
def zeroState : LEDDriver :=
  { numLeds_ := 1
    buffer_ := [0, 0, 0]
    lastBuffer_ := [0, 0, 0]
    lastFloatBuffer_ := [0, 0, 0]
    gammaLUT_ := (List.range 256).map (fun i : ℕ => (i : ℚ))
    gamma_ := 1
    brightness_ := 1
    smoothingAlpha_ := 1 }

/-- The gamma table C2 describes, following the spec's words: entry `i` is
`round(255 * (i/255)^gamma)`, rounded to the nearest integer and clamped to
[0,255]. -/
def gammaTableSpec (pw : ℚ → ℚ → ℚ) (gamma : ℚ) : List ℚ :=
  (List.range 256).map
    (fun i : ℕ => ((max 0 (min 255 (round (255 * pw ((i : ℚ) / 255) gamma))) : ℤ) : ℚ))

/-! ## Helper lemmas -/

/-- `applyGammaAndBrightness` recomputes `buffer_` and changes nothing else,
so running it twice equals running it once. -/
theorem applyGamma_idem (s : LEDDriver) :
    applyGammaAndBrightness (applyGammaAndBrightness s) = applyGammaAndBrightness s := by
  simp [applyGammaAndBrightness]

/-- one EMA step with alpha 1 copies the new buffer. -/
theorem zip_map_ema_one (xs : List ℚ) (ys : List Nat) (h : xs.length = ys.length) :
    (xs.zip ys).map (fun p => p.1 + 1 * ((p.2 : ℚ) - p.1)) = ys.map (fun n : ℕ => (n : ℚ)) := by
  induction xs generalizing ys with
  | nil =>
    cases ys with
    | nil => simp
    | cons y ys => simp at h
  | cons x xs ih =>
    cases ys with
    | nil => simp at h
    | cons y ys =>
      simp only [List.zip_cons_cons, List.map_cons, List.cons.injEq]
      constructor
      · ring
      · exact ih ys (by simpa using h)

/-- an EMA step with alpha 0 keeps every channel. -/
theorem zip_map_ema_zero (xs : List ℚ) (ys : List Nat) (h : xs.length = ys.length) :
    (xs.zip ys).map (fun p => p.1 + 0 * ((p.2 : ℚ) - p.1)) = xs := by
  induction xs generalizing ys with
  | nil => simp
  | cons x xs ih =>
    cases ys with
    | nil => simp at h
    | cons y ys =>
      simp only [List.zip_cons_cons, List.map_cons, List.cons.injEq]
      exact ⟨by ring, ih ys (by simpa using h)⟩

/-- entry extraction from a table built by mapping over `List.range`. -/
theorem getD_range_map (f : Nat → ℚ) (n i : Nat) (h : i < n) :
    ((List.range n).map f).getD i 0 = f i := by
  rw [List.getD_eq_getElem?_getD, List.getElem?_map, List.getElem?_range h]
  rfl

/-! ## Claim theorems -/

/-- C9: `reshapeOutput` (`applyGammaAndBrightness`) is idempotent: with no
intervening mutation of target, gamma table, or brightness, a second call
yields a state (in particular an `output` buffer) identical to the first. -/
theorem c9_reshape_idempotent (s : LEDDriver) :
    applyGammaAndBrightness (applyGammaAndBrightness s) = applyGammaAndBrightness s :=
  applyGamma_idem s

/-- C8: `applySmoothing` (`doSmoothing`) with a buffer whose length differs
from the float buffer's logs and returns, leaving the whole driver state
(target buffer, output buffer and configuration) exactly as before. -/
theorem c8_smoothing_mismatch (s : LEDDriver) (newbuf : List Nat)
    (h : newbuf.length ≠ s.lastFloatBuffer_.length) :
    doSmoothing newbuf s = s := by
  simp [doSmoothing, h]

/-- C8 witness: a 2-byte frame against the 3-channel `zeroState`. -/
theorem c8_smoothing_mismatch_witness : doSmoothing [5, 5] zeroState = zeroState :=
  c8_smoothing_mismatch zeroState [5, 5] (by decide)

/-- C3 is a code bug, not a property: every mutator that calls
`applyGammaAndBrightness` while holding `mutex_` re-acquires the same
non-recursive `std::mutex` on the same thread (`setAll`, `setPixel`,
`setGamma`, `setBrightness`, `clear`), which is undefined behaviour /
deadlock, so the claimed "lock held across the whole mutate-then-reshape
sequence" never completes; only the `COLOR` path's unlocked call chain is
deadlock-free. -/
theorem c3_lock_reentry_deadlock :
    selfDeadlocks setAllTrace = true ∧
    selfDeadlocks setPixelTrace = true ∧
    selfDeadlocks setGammaTrace = true ∧
    selfDeadlocks setBrightnessTrace = true ∧
    selfDeadlocks clearTrace = true ∧
    selfDeadlocks doSmoothingTrace = false ∧
    selfDeadlocks applyTrace = false ∧
    selfDeadlocks colorCommandTrace = false := by
  decide

/-- C2 counterexample: with the exact square power function, rebuilding the
table with gamma 2 stores `255 * (12/255)^2 = 144/255` at index 12, while
the claim's rounded-and-clamped entry is `round(144/255) = 1`. -/
theorem c2_counterexample :
    (buildGammaLUT sqPow 2 zeroState).gammaLUT_.getD 12 0 = 144 / 255 ∧
    (gammaTableSpec sqPow 2).getD 12 0 = 1 ∧
    (buildGammaLUT sqPow 2 zeroState).gammaLUT_.getD 12 0 ≠
      (gammaTableSpec sqPow 2).getD 12 0 := by
  refine ⟨?_, ?_, ?_⟩
  · rw [show (buildGammaLUT sqPow 2 zeroState).gammaLUT_
        = (List.range 256).map (fun i : ℕ => sqPow ((i : ℚ) / 255) 2 * 255) from rfl,
      getD_range_map _ 256 12 (by norm_num)]
    norm_num [sqPow]
  · rw [show gammaTableSpec sqPow 2
        = (List.range 256).map
            (fun i : ℕ => ((max 0 (min 255 (round (255 * sqPow ((i : ℚ) / 255) 2))) : ℤ) : ℚ))
        from rfl,
      getD_range_map _ 256 12 (by norm_num)]
    norm_num [sqPow, round_eq]
  · intro heq
    rw [show (buildGammaLUT sqPow 2 zeroState).gammaLUT_
        = (List.range 256).map (fun i : ℕ => sqPow ((i : ℚ) / 255) 2 * 255) from rfl,
      getD_range_map _ 256 12 (by norm_num)] at heq
    rw [show gammaTableSpec sqPow 2
        = (List.range 256).map
            (fun i : ℕ => ((max 0 (min 255 (round (255 * sqPow ((i : ℚ) / 255) 2))) : ℤ) : ℚ))
        from rfl,
      getD_range_map _ 256 12 (by norm_num)] at heq
    norm_num [sqPow, round_eq] at heq

/-- C2 amended: `buildGammaLUT` produces a 256-entry table whose entry `i`
is the unrounded, unclamped value `powf(i/255, gamma) * 255`; rounding to
the nearest integer and clamping to a byte happen only later, when
`applyGammaAndBrightness` consumes an entry. -/
theorem c2_gamma_lut_amended (pw : ℚ → ℚ → ℚ) (gamma : ℚ) (s : LEDDriver) :
    (buildGammaLUT pw gamma s).gammaLUT_.length = 256 ∧
    ∀ i, i < 256 →
      (buildGammaLUT pw gamma s).gammaLUT_.getD i 0 = pw ((i : ℚ) / 255) gamma * 255 := by
  constructor
  · simp [buildGammaLUT]
  · intro i hi
    show ((List.range 256).map (fun i : ℕ => pw ((i : ℚ) / 255) gamma * 255)).getD i 0 = _
    exact getD_range_map _ 256 i hi

/-- C2 witness: the amended statement evaluated at the square power
function, gamma 2, index 12. -/
theorem c2_gamma_lut_amended_witness :
    (buildGammaLUT sqPow 2 zeroState).gammaLUT_.getD 12 0 = sqPow ((12 : ℚ) / 255) 2 * 255 :=
  (c2_gamma_lut_amended sqPow 2 zeroState).2 12 (by norm_num)

/-! ### Projection lemmas for `doSmoothing` and `applyGammaAndBrightness` -/

theorem doSmoothing_buffer (nb : List Nat) (s : LEDDriver) :
    (doSmoothing nb s).buffer_ = s.buffer_ := by
  unfold doSmoothing; split <;> rfl

theorem doSmoothing_gammaLUT (nb : List Nat) (s : LEDDriver) :
    (doSmoothing nb s).gammaLUT_ = s.gammaLUT_ := by
  unfold doSmoothing; split <;> rfl

theorem doSmoothing_brightness (nb : List Nat) (s : LEDDriver) :
    (doSmoothing nb s).brightness_ = s.brightness_ := by
  unfold doSmoothing; split <;> rfl

theorem doSmoothing_numLeds (nb : List Nat) (s : LEDDriver) :
    (doSmoothing nb s).numLeds_ = s.numLeds_ := by
  unfold doSmoothing; split <;> rfl

theorem doSmoothing_length (nb : List Nat) (s : LEDDriver) :
    (doSmoothing nb s).lastFloatBuffer_.length = s.lastFloatBuffer_.length := by
  unfold doSmoothing
  split
  · rfl
  · next h =>
    simp only [List.map_map, List.length_map, List.length_zip]
    omega

/-- the EMA step applied when the lengths agree and the stored alpha is 1. -/
theorem doSmoothing_alpha_one (nb : List Nat) (s : LEDDriver)
    (hlen : nb.length = s.lastFloatBuffer_.length) (ha : s.smoothingAlpha_ = 1) :
    (doSmoothing nb s).lastFloatBuffer_ = nb.map (fun n : ℕ => (n : ℚ)) := by
  unfold doSmoothing
  rw [if_neg (by omega)]
  simp only [ha]
  have hc : cppClamp 1 0 1 = (1 : ℚ) := by norm_num [cppClamp]
  simp only [hc]
  exact zip_map_ema_one s.lastFloatBuffer_ nb hlen.symm

/-- with stored alpha 0 and matching lengths, `doSmoothing` is the
identity on the whole state. -/
theorem doSmoothing_alpha_zero (nb : List Nat) (s : LEDDriver)
    (hlen : nb.length = s.lastFloatBuffer_.length) (ha : s.smoothingAlpha_ = 0) :
    doSmoothing nb s = s := by
  unfold doSmoothing
  rw [if_neg (by omega)]
  simp only [ha]
  have hc : cppClamp 0 0 1 = (0 : ℚ) := by norm_num [cppClamp]
  simp only [hc]
  rw [zip_map_ema_zero s.lastFloatBuffer_ nb hlen.symm, ← ha]

theorem apply_lastFloat (s : LEDDriver) :
    (applyGammaAndBrightness s).lastFloatBuffer_ = s.lastFloatBuffer_ := rfl

theorem apply_brightness (s : LEDDriver) :
    (applyGammaAndBrightness s).brightness_ = s.brightness_ := rfl

theorem apply_gammaLUT (s : LEDDriver) :
    (applyGammaAndBrightness s).gammaLUT_ = s.gammaLUT_ := rfl

theorem apply_buffer_length (s : LEDDriver) :
    (applyGammaAndBrightness s).buffer_.length = s.buffer_.length := by
  simp [applyGammaAndBrightness]

/-- C6: `applySmoothing` (`doSmoothing`) performs the exponential moving
average `target = target + alpha*(new - target)` per channel; with the
stored alpha 1 one step copies the input buffer exactly, and with alpha 0
any number of steps leaves the target unchanged, for every target buffer
and equal-length input. -/
theorem c6_smoothing_ema (s : LEDDriver) (newbuf : List Nat)
    (hlen : newbuf.length = s.lastFloatBuffer_.length) :
    (∀ i, i < s.lastFloatBuffer_.length →
      (doSmoothing newbuf s).lastFloatBuffer_.getD i 0 =
        s.lastFloatBuffer_.getD i 0 +
          cppClamp s.smoothingAlpha_ 0 1 *
            (((newbuf.getD i 0 : ℕ) : ℚ) - s.lastFloatBuffer_.getD i 0))
    ∧ (s.smoothingAlpha_ = 1 →
      (doSmoothing newbuf s).lastFloatBuffer_ = newbuf.map (fun n : ℕ => (n : ℚ)))
    ∧ (s.smoothingAlpha_ = 0 →
      ∀ k, ((doSmoothing newbuf)^[k] s).lastFloatBuffer_ = s.lastFloatBuffer_) := by
  refine ⟨?_, ?_, ?_⟩
  · intro i hi
    unfold doSmoothing
    rw [if_neg (by omega)]
    simp only []
    have hzl : (s.lastFloatBuffer_.zip newbuf).length = s.lastFloatBuffer_.length := by
      rw [List.length_zip]; omega
    have hml : ((s.lastFloatBuffer_.zip newbuf).map
        (fun p => p.1 + cppClamp s.smoothingAlpha_ 0 1 * ((p.2 : ℚ) - p.1))).length
        = s.lastFloatBuffer_.length := by
      rw [List.length_map, hzl]
    rw [List.getD_eq_getElem _ _ (by omega : i < _), List.getD_eq_getElem _ _ hi,
      List.getD_eq_getElem _ _ (by omega : i < newbuf.length)]
    rw [List.getElem_map, List.getElem_zip]
  · intro ha
    exact doSmoothing_alpha_one newbuf s hlen ha
  · intro ha k
    rw [Function.iterate_fixed (doSmoothing_alpha_zero newbuf s hlen ha) k]

/-- C6 witness: one alpha-1 step on `zeroState` copies `[5,6,7]`. -/
theorem c6_smoothing_ema_witness :
    (doSmoothing [5, 6, 7] zeroState).lastFloatBuffer_ =
      [5, 6, 7].map (fun n : ℕ => (n : ℚ)) :=
  (c6_smoothing_ema zeroState [5, 6, 7] (by decide)).2.1 (by decide)

/-- C7: `setPixel` with an index outside [0,N) is a no-op — the whole state
(target, output, configuration) is returned unchanged — and the command
line `"PIX 9999 10 10 10"` on a 60-LED strip whose output is in sync with
its target (the class invariant `output = shape(target)`) changes nothing. -/
theorem c7_setpixel_oob (pw : ℚ → ℚ → ℚ) (s : LEDDriver) (idx : Int) (r g b : Nat)
    (hidx : idx < 0 ∨ (s.numLeds_ : Int) ≤ idx)
    (hn : s.numLeds_ = 60) (hinv : applyGammaAndBrightness s = s) :
    setPixel idx r g b s = s ∧ handleCommand pw "PIX 9999 10 10 10".data s = s := by
  constructor
  · rw [setPixel, if_pos hidx]
  · have hred : handleCommand pw "PIX 9999 10 10 10".data s
        = showOut (setPixel 9999 (clamp255 10) (clamp255 10) (clamp255 10) s) := rfl
    rw [hred, setPixel, if_pos (by rw [hn]; norm_num), showOut, hinv]

/-- base state for the C7 witness: a 60-LED strip. -/
def c7Base : LEDDriver :=
  { numLeds_ := 60
    buffer_ := List.replicate 180 0
    lastBuffer_ := List.replicate 180 0
    lastFloatBuffer_ := List.replicate 180 (0 : ℚ)
    gammaLUT_ := (List.range 256).map (fun i : ℕ => (i : ℚ))
    gamma_ := 1
    brightness_ := 1
    smoothingAlpha_ := 1 }

/-- the C7 witness state, reshaped once so the invariant holds. -/
def c7State : LEDDriver := applyGammaAndBrightness c7Base

/-- C7 witness: index 9999 on the 60-LED state, as a direct call and as the
protocol line. -/
theorem c7_setpixel_oob_witness :
    setPixel 9999 10 10 10 c7State = c7State ∧
    handleCommand idPow "PIX 9999 10 10 10".data c7State = c7State :=
  c7_setpixel_oob idPow c7State 9999 10 10 10 (Or.inr (by decide)) rfl
    (applyGamma_idem c7Base)

/-- with the identity gamma table and brightness 1, shaping a channel that
holds an exact byte value returns that byte. -/
theorem shapeChannel_id (k : ℕ) (hk : k ≤ 255) :
    shapeChannel ((List.range 256).map (fun i : ℕ => (i : ℚ))) 1 (k : ℚ) = k := by
  have h0 : ¬ ((k : ℚ) < 0) := not_lt.mpr (by positivity)
  have h255 : ¬ ((k : ℚ) > 255) := not_lt.mpr (by exact_mod_cast hk)
  have hfloor : ⌊(k : ℚ) + 1/2⌋ = (k : ℤ) := by
    rw [Int.floor_eq_iff]
    constructor
    · push_cast
      linarith
    · push_cast
      linarith
  simp only [shapeChannel, ftoi]
  rw [if_neg h0, if_neg h255, if_pos (by positivity : (0 : ℚ) ≤ (k : ℚ) + 1/2), hfloor]
  rw [if_neg (by exact_mod_cast Nat.not_lt_zero k : ¬ ((k : ℤ) < 0)),
    if_neg (not_lt.mpr (by exact_mod_cast hk) : ¬ ((k : ℤ) > 255))]
  rw [Int.toNat_natCast, getD_range_map _ 256 k (by omega), mul_one,
    if_pos (by positivity : (0 : ℚ) ≤ (k : ℚ) + 1/2), hfloor]
  simp only [clamp255]
  rw [if_neg (by exact_mod_cast Nat.not_lt_zero k : ¬ ((k : ℤ) < 0)),
    if_neg (not_lt.mpr (by exact_mod_cast hk) : ¬ ((k : ℤ) > 255))]
  exact Int.toNat_natCast k

set_option maxHeartbeats 1600000 in
/-- C1: on a 3-LED strip with the gamma table rebuilt for gamma 1 (under
any power function exact at exponent 1, as `powf` is), brightness 1 and
smoothing alpha 1, handling `"COLOR 100 150 200"` leaves the output byte
buffer equal to `[100,150,200,100,150,200,100,150,200]`, whatever the prior
target and output contents were. -/
theorem c1_color_end_to_end (pw : ℚ → ℚ → ℚ) (s : LEDDriver)
    (hpw : ∀ x : ℚ, pw x 1 = x)
    (hn : s.numLeds_ = 3)
    (hlut : s.gammaLUT_ = (buildGammaLUT pw 1 s).gammaLUT_)
    (hb : s.brightness_ = 1)
    (ha : s.smoothingAlpha_ = 1)
    (hfl : s.lastFloatBuffer_.length = 9)
    (hbl : s.buffer_.length = 9) :
    (handleCommand pw "COLOR 100 150 200".data s).buffer_ =
      [100, 150, 200, 100, 150, 200, 100, 150, 200] := by
  have hlut' : s.gammaLUT_ = (List.range 256).map (fun i : ℕ => (i : ℚ)) := by
    rw [hlut]
    show (List.range 256).map (fun i : ℕ => pw ((i : ℚ) / 255) 1 * 255) = _
    refine List.map_congr_left ?_
    intro i _
    rw [hpw ((i : ℚ) / 255)]
    exact div_mul_cancel₀ _ (by norm_num)
  have hred : handleCommand pw "COLOR 100 150 200".data s
      = showOut (applyGammaAndBrightness
          (doSmoothing (colorNewbuf s.numLeds_ 100 150 200) s)) := rfl
  have hnb : colorNewbuf s.numLeds_ 100 150 200
      = [100, 150, 200, 100, 150, 200, 100, 150, 200] := by
    rw [hn]; decide
  have hsm : (doSmoothing (colorNewbuf s.numLeds_ 100 150 200) s).lastFloatBuffer_
      = ([100, 150, 200, 100, 150, 200, 100, 150, 200] : List ℕ).map
          (fun n : ℕ => (n : ℚ)) := by
    rw [hnb, doSmoothing_alpha_one _ s (by rw [hfl]; rfl) ha]
  rw [hred, showOut, applyGamma_idem]
  show (List.range (doSmoothing (colorNewbuf s.numLeds_ 100 150 200) s).buffer_.length).map
      (fun i => shapeChannel (doSmoothing (colorNewbuf s.numLeds_ 100 150 200) s).gammaLUT_
        (doSmoothing (colorNewbuf s.numLeds_ 100 150 200) s).brightness_
        ((doSmoothing (colorNewbuf s.numLeds_ 100 150 200) s).lastFloatBuffer_.getD i 0)) = _
  rw [hsm, doSmoothing_buffer, doSmoothing_gammaLUT, doSmoothing_brightness, hbl, hlut', hb]
  apply List.ext_getElem
  · simp
  · intro i h1 h2
    simp only [List.getElem_map, List.getElem_range]
    have h9 : i < 9 := by simpa using h1
    interval_cases i <;>
      first
      | exact shapeChannel_id 100 (by norm_num)
      | exact shapeChannel_id 150 (by norm_num)
      | exact shapeChannel_id 200 (by norm_num)

/-- `std::clamp` into [0,1] is idempotent. -/
theorem cppClamp_idem (v : ℚ) : cppClamp (cppClamp v 0 1) 0 1 = cppClamp v 0 1 := by
  unfold cppClamp
  split_ifs <;> linarith

/-- the `BRIGHT` branch when the argument word contains a dot: brightness
becomes the `stof` value clamped to [0,1]. -/
theorem bright_float_branch (pw : ℚ → ℚ → ℚ) (s : LEDDriver)
    (cmd v rest rest' r1 : List Char) (x : ℚ)
    (htok : readTok cmd = some ("BRIGHT".data, rest))
    (hval : readTok rest = some (v, rest'))
    (hdot : '.' ∈ v)
    (hparse : readFloatC v = some (x, r1)) :
    (handleCommand pw cmd s).brightness_ = cppClamp x 0 1 := by
  unfold handleCommand
  simp only [htok]
  simp only [if_true]
  simp only [hval]
  rw [if_pos hdot]
  simp only [hparse]
  rw [if_neg (by decide : (['B','R','I','G','H','T'] : List Char) ≠ ['C','O','L','O','R']),
    if_neg (by decide : (['B','R','I','G','H','T'] : List Char) ≠ ['P','I','X'])]
  rfl

/-- the `BRIGHT` branch when the argument word has no dot: the `stoi` value
is taken as a percentage when above 1, as-is otherwise, then clamped. -/
theorem bright_int_branch (pw : ℚ → ℚ → ℚ) (s : LEDDriver)
    (cmd v rest rest' r2 : List Char) (bi : ℤ)
    (htok : readTok cmd = some ("BRIGHT".data, rest))
    (hval : readTok rest = some (v, rest'))
    (hdot : '.' ∉ v)
    (hparse : readIntC v = some (bi, r2)) :
    (handleCommand pw cmd s).brightness_ =
      if 1 < bi then cppClamp ((bi : ℚ) / 100) 0 1 else cppClamp (bi : ℚ) 0 1 := by
  unfold handleCommand
  simp only [htok]
  simp only [if_true]
  simp only [hval]
  rw [if_neg hdot]
  simp only [hparse]
  rw [if_neg (by decide : (['B','R','I','G','H','T'] : List Char) ≠ ['C','O','L','O','R']),
    if_neg (by decide : (['B','R','I','G','H','T'] : List Char) ≠ ['P','I','X'])]
  by_cases h1 : 1 < bi
  · rw [if_pos h1, if_pos h1]
    show cppClamp (cppClamp ((bi : ℚ) / 100) 0 1) 0 1 = _
    exact cppClamp_idem _
  · rw [if_neg h1, if_neg h1]
    show cppClamp (cppClamp (bi : ℚ) 0 1) 0 1 = _
    exact cppClamp_idem _

/-- C4: `BRIGHT` argument parsing — an argument containing `'.'` is read as
a fraction and clamped to [0,1]; otherwise it is read as an integer, values
above 1 are divided by 100 and values at most 1 used as-is (the final store
clamps to [0,1] in both cases); in particular `"BRIGHT 80"` and
`"BRIGHT 0.8"` both set brightness to 0.8. -/
theorem c4_bright_parsing (pw : ℚ → ℚ → ℚ) (s : LEDDriver)
    (cmd v rest rest' r1 r2 : List Char) (x : ℚ) (bi : ℤ)
    (htok : readTok cmd = some ("BRIGHT".data, rest))
    (hval : readTok rest = some (v, rest')) :
    ('.' ∈ v → readFloatC v = some (x, r1) →
      (handleCommand pw cmd s).brightness_ = cppClamp x 0 1)
    ∧ ('.' ∉ v → readIntC v = some (bi, r2) →
      (handleCommand pw cmd s).brightness_ =
        if 1 < bi then cppClamp ((bi : ℚ) / 100) 0 1 else cppClamp (bi : ℚ) 0 1)
    ∧ (handleCommand pw "BRIGHT 80".data s).brightness_ = 4/5
    ∧ (handleCommand pw "BRIGHT 0.8".data s).brightness_ = 4/5 := by
  refine ⟨fun hdot hparse => bright_float_branch pw s cmd v rest rest' r1 x htok hval hdot hparse,
    fun hdot hparse => bright_int_branch pw s cmd v rest rest' r2 bi htok hval hdot hparse,
    ?_, ?_⟩
  · have h := bright_int_branch pw s "BRIGHT 80".data "80".data " 80".data [] [] 80
      (by decide) (by decide) (by decide) (by decide)
    rw [h, if_pos (by norm_num)]
    norm_num [cppClamp]
  · have h := bright_float_branch pw s "BRIGHT 0.8".data "0.8".data " 0.8".data [] []
      ((digitsVal "0".data : ℚ) + (digitsVal "8".data : ℚ) / 10 ^ "8".data.length)
      (by decide) (by decide) (by decide) rfl
    rw [h, show digitsVal "0".data = 0 from by decide,
      show digitsVal "8".data = 8 from by decide,
      show ("8".data.length) = 1 from rfl]
    norm_num [cppClamp]

/-- C4 witness: `"BRIGHT 0.5"` on `zeroState` through the dot branch. -/
theorem c4_bright_parsing_witness :
    (handleCommand idPow "BRIGHT 0.5".data zeroState).brightness_ =
      cppClamp ((digitsVal "0".data : ℚ) + (digitsVal "5".data : ℚ) / 10 ^ "5".data.length)
        0 1 :=
  (c4_bright_parsing idPow zeroState "BRIGHT 0.5".data "0.5".data " 0.5".data [] [] []
      ((digitsVal "0".data : ℚ) + (digitsVal "5".data : ℚ) / 10 ^ "5".data.length) 0
      (by decide) (by decide)).1 (by decide) rfl

/-- the first element surviving `dropWhile` falsifies the predicate. -/
theorem dropWhile_cons_false {α : Type} (p : α → Bool) :
    ∀ (l : List α) (x : α) (xs : List α), l.dropWhile p = x :: xs → p x = false := by
  intro l
  induction l with
  | nil => intro x xs h; simp [List.dropWhile] at h
  | cons a l ih =>
    intro x xs h
    by_cases hp : p a
    · rw [List.dropWhile_cons, if_pos hp] at h
      exact ih x xs h
    · rw [List.dropWhile_cons, if_neg hp] at h
      cases h
      simpa using hp

/-- one unfolding of the drain loop when the accumulator holds a newline. -/
theorem drainLines_pos (cs : List Char) (h : '\n' ∈ cs) :
    drainLines cs =
      (cs.takeWhile (fun c => c ≠ '\n') ::
          (drainLines ((cs.dropWhile (fun c => c ≠ '\n')).tail)).1,
        (drainLines ((cs.dropWhile (fun c => c ≠ '\n')).tail)).2) := by
  rw [drainLines]
  simp only [dif_pos h]

/-- one unfolding of the drain loop when no newline is buffered. -/
theorem drainLines_neg (cs : List Char) (h : ¬ ('\n' ∈ cs)) :
    drainLines cs = ([], cs) := by
  rw [drainLines]
  simp only [dif_neg h]

/-- draining splits the buffer into its newline-terminated lines (in
order, none containing a newline) and a newline-free remainder. -/
theorem drainLines_spec (cs : List Char) :
    ((drainLines cs).1.map (fun l => l ++ ['\n'])).flatten ++ (drainLines cs).2 = cs
    ∧ (∀ l ∈ (drainLines cs).1, '\n' ∉ l)
    ∧ '\n' ∉ (drainLines cs).2 := by
  by_cases h : '\n' ∈ cs
  · have hd : cs.dropWhile (fun c => c ≠ '\n') ≠ [] :=
      dropWhile_ne_nil_of_mem _ cs '\n' h (by simp)
    obtain ⟨x, xs, hx⟩ := List.exists_cons_of_ne_nil hd
    have hx0 : x = '\n' := by
      have hfalse := dropWhile_cons_false (fun c : Char => decide (c ≠ '\n')) cs x xs hx
      simpa using hfalse
    subst hx0
    have htail : (cs.dropWhile (fun c => c ≠ '\n')).tail = xs := by rw [hx]; rfl
    have ih := drainLines_spec ((cs.dropWhile (fun c => c ≠ '\n')).tail)
    rw [drainLines_pos cs h, htail]
    rw [htail] at ih
    obtain ⟨ih1, ih2, ih3⟩ := ih
    refine ⟨?_, ?_, ih3⟩
    · simp only [List.map_cons, List.flatten_cons, List.append_assoc]
      rw [ih1]
      have hsplit := List.takeWhile_append_dropWhile (p := fun c => decide (c ≠ '\n')) (l := cs)
      rw [hx] at hsplit
      simpa using hsplit
    · intro l hl
      rcases List.mem_cons.mp hl with rfl | hl
      · intro hmem
        have := List.mem_takeWhile_imp hmem
        simp at this
      · exact ih2 l hl
  · rw [drainLines_neg cs h]
    exact ⟨by simp, by simp, h⟩
termination_by cs.length
decreasing_by
  have hne : cs.dropWhile (fun c => c ≠ '\n') ≠ [] :=
    dropWhile_ne_nil_of_mem _ cs '\n' h (by simp)
  have h1 : (cs.dropWhile (fun c => c ≠ '\n')).tail.length
      = (cs.dropWhile (fun c => c ≠ '\n')).length - 1 := List.length_tail _
  have h2 : 0 < (cs.dropWhile (fun c => c ≠ '\n')).length :=
    List.length_pos.mpr hne
  have h3 : (cs.dropWhile (fun c => c ≠ '\n')).length ≤ cs.length :=
    length_dropWhile_le _ _
  omega

/-- the connection loop invariant: folding chunks through `feedStep`
appends to the dispatched lines exactly the completed lines of the bytes
seen so far, keeping a newline-free accumulator. -/
theorem feedAux (chunks : List (List Char)) (out : List (List Char)) (acc : List Char)
    (hout : ∀ l ∈ out, '\n' ∉ l) (hacc : '\n' ∉ acc) :
    ((chunks.foldl feedStep (out, acc)).1.map (fun l => l ++ ['\n'])).flatten
        ++ (chunks.foldl feedStep (out, acc)).2
      = (out.map (fun l => l ++ ['\n'])).flatten ++ acc ++ chunks.flatten
    ∧ (∀ l ∈ (chunks.foldl feedStep (out, acc)).1, '\n' ∉ l)
    ∧ '\n' ∉ (chunks.foldl feedStep (out, acc)).2 := by
  induction chunks generalizing out acc with
  | nil =>
    refine ⟨by simp, hout, hacc⟩
  | cons c more ih =>
    obtain ⟨h1, h2, h3⟩ := drainLines_spec (acc ++ c)
    have ih' := ih (out ++ (drainLines (acc ++ c)).1) (drainLines (acc ++ c)).2
      (by
        intro l hl
        rcases List.mem_append.mp hl with hl | hl
        · exact hout l hl
        · exact h2 l hl)
      h3
    obtain ⟨ihA, ihB, ihC⟩ := ih'
    rw [List.foldl_cons,
      show feedStep (out, acc) c
        = (out ++ (drainLines (acc ++ c)).1, (drainLines (acc ++ c)).2) from rfl]
    refine ⟨?_, ihB, ihC⟩
    rw [ihA, List.map_append, List.flatten_append, List.flatten_cons,
      List.append_assoc ((out.map (fun l => l ++ ['\n'])).flatten), h1]
    simp [List.append_assoc]

/-- C5: the read loop reassembles newline-delimited lines across reads:
for every chunk sequence, the dispatched lines followed by their newlines
and the retained accumulator reconstitute exactly the received bytes, in
order, with no newline inside any dispatched line or the accumulator (so
each complete line is dispatched exactly once and the trailing partial
line is retained); feeding `"COL"` then `"OR 1 2 3\n"` dispatches exactly
the single line `COLOR 1 2 3`, and one read holding two complete lines
plus a partial dispatches both in one pass. -/
theorem c5_line_reassembly :
    (∀ chunks : List (List Char),
      ((feedChunks chunks).1.map (fun l => l ++ ['\n'])).flatten ++ (feedChunks chunks).2
          = chunks.flatten
        ∧ (∀ l ∈ (feedChunks chunks).1, '\n' ∉ l)
        ∧ '\n' ∉ (feedChunks chunks).2)
    ∧ feedChunks ["COL".data, "OR 1 2 3\n".data] = (["COLOR 1 2 3".data], [])
    ∧ feedChunks ["X 1\nY 2\npart".data] = (["X 1".data, "Y 2".data], "part".data) := by
  have e1 : drainLines "COL".data = ([], "COL".data) := drainLines_neg _ (by decide)
  have e2 : drainLines "COLOR 1 2 3\n".data = (["COLOR 1 2 3".data], []) := by
    rw [drainLines_pos _ (by decide),
      show ("COLOR 1 2 3\n".data.takeWhile (fun c => c ≠ '\n')) = "COLOR 1 2 3".data
        from by decide,
      show (("COLOR 1 2 3\n".data.dropWhile (fun c => c ≠ '\n')).tail) = ([] : List Char)
        from by decide,
      drainLines_neg [] (by decide)]
  have e3 : drainLines "X 1\nY 2\npart".data = (["X 1".data, "Y 2".data], "part".data) := by
    rw [drainLines_pos _ (by decide),
      show ("X 1\nY 2\npart".data.takeWhile (fun c => c ≠ '\n')) = "X 1".data from by decide,
      show (("X 1\nY 2\npart".data.dropWhile (fun c => c ≠ '\n')).tail) = "Y 2\npart".data
        from by decide,
      drainLines_pos "Y 2\npart".data (by decide),
      show ("Y 2\npart".data.takeWhile (fun c => c ≠ '\n')) = "Y 2".data from by decide,
      show (("Y 2\npart".data.dropWhile (fun c => c ≠ '\n')).tail) = "part".data from by decide,
      drainLines_neg "part".data (by decide)]
  refine ⟨?_, ?_, ?_⟩
  · intro chunks
    have h := feedAux chunks [] [] (by simp) (by simp)
    simpa [feedChunks] using h
  · show List.foldl feedStep ([], []) ["COL".data, "OR 1 2 3\n".data] = _
    rw [List.foldl_cons, List.foldl_cons, List.foldl_nil]
    simp only [feedStep, List.nil_append, e1]
    rw [show ("COL".data ++ "OR 1 2 3\n".data) = "COLOR 1 2 3\n".data from by decide, e2]
  · show List.foldl feedStep ([], []) ["X 1\nY 2\npart".data] = _
    rw [List.foldl_cons, List.foldl_nil]
    simp only [feedStep, List.nil_append, e3]

/-- C5 witness: the two-read reassembly instance of the general invariant —
the retained accumulator after `"COL"`, `"OR 1 2 3\n"` holds no newline. -/
theorem c5_line_reassembly_witness :
    '\n' ∉ (feedChunks ["COL".data, "OR 1 2 3\n".data]).2 :=
  (c5_line_reassembly.1 ["COL".data, "OR 1 2 3\n".data]).2.2

/-! ### Strip dimensions (C10) -/

/-- the sizes the strip is built with: LED count, byte-buffer length,
float-buffer length. -/
def stripDims (s : LEDDriver) : Nat × Nat × Nat :=
  (s.numLeds_, s.buffer_.length, s.lastFloatBuffer_.length)

theorem stripDims_apply (s : LEDDriver) :
    stripDims (applyGammaAndBrightness s) = stripDims s := by
  simp [stripDims, applyGammaAndBrightness]

theorem stripDims_doSmoothing (nb : List Nat) (s : LEDDriver) :
    stripDims (doSmoothing nb s) = stripDims s := by
  unfold doSmoothing
  split
  · rfl
  · next h =>
    have hmin : min s.lastFloatBuffer_.length nb.length = s.lastFloatBuffer_.length := by omega
    simp only [stripDims, List.length_map, List.length_zip, hmin]

/-- the `setAll` fill loop never changes the buffer's length. -/
theorem length_foldl_set3 (r g b : ℚ) (ns : List ℕ) : ∀ (l : List ℚ),
    (ns.foldl (fun buf i => ((buf.set (i * 3) r).set (i * 3 + 1) g).set (i * 3 + 2) b) l).length
      = l.length := by
  induction ns with
  | nil => intro l; rfl
  | cons n ns ih =>
    intro l
    rw [List.foldl_cons, ih]
    simp

theorem stripDims_setAll (r g b : Nat) (s : LEDDriver) :
    stripDims (setAll r g b s) = stripDims s := by
  unfold setAll
  rw [stripDims_apply]
  simp [stripDims, length_foldl_set3]

theorem stripDims_setPixel (idx : Int) (r g b : Nat) (s : LEDDriver) :
    stripDims (setPixel idx r g b s) = stripDims s := by
  unfold setPixel
  split
  · rfl
  · rw [stripDims_apply]
    simp [stripDims]

theorem stripDims_showOut (s : LEDDriver) : stripDims (showOut s) = stripDims s :=
  stripDims_apply s

theorem stripDims_clear (s : LEDDriver) : stripDims (clear s) = stripDims s := by
  unfold clear
  rw [stripDims_showOut]
  simp [stripDims]

theorem stripDims_setGamma (pw : ℚ → ℚ → ℚ) (g : ℚ) (s : LEDDriver) :
    stripDims (setGamma pw g s) = stripDims s := by
  unfold setGamma
  split
  · rfl
  · rw [stripDims_apply]
    rfl

theorem stripDims_setBrightness (b : ℚ) (s : LEDDriver) :
    stripDims (setBrightness b s) = stripDims s := by
  unfold setBrightness
  rw [stripDims_apply]
  rfl

theorem stripDims_setSmoothingAlpha (a : ℚ) (s : LEDDriver) :
    stripDims (setSmoothingAlpha a s) = stripDims s := rfl

theorem stripDims_handleCommand (pw : ℚ → ℚ → ℚ) (cmd : List Char) (s : LEDDriver) :
    stripDims (handleCommand pw cmd s) = stripDims s := by
  unfold handleCommand
  cases hr : readTok cmd with
  | none => rfl
  | some p =>
    obtain ⟨tok, rest⟩ := p
    repeat' split
    all_goals
      first
      | rfl
      | simp only [showOut, stripDims_apply, stripDims_doSmoothing, stripDims_setPixel,
          stripDims_setAll, stripDims_setBrightness, stripDims_setGamma, stripDims_clear,
          stripDims_setSmoothingAlpha]

/-- C10: the constructor clamps the LED count to `max(1, num_leds)` and
sizes the byte and float buffers to three bytes per LED; every operation
of the driver, the protocol dispatcher included, preserves the LED count
and both buffer lengths — the strip is never resized. -/
theorem c10_strip_sizing (pw : ℚ → ℚ → ℚ) :
    (∀ n : Int, stripDims (mkLEDDriver pw n) =
      ((max 1 n).toNat, (max 1 n).toNat * 3, (max 1 n).toNat * 3))
    ∧ (∀ s r g b, stripDims (setAll r g b s) = stripDims s)
    ∧ (∀ s idx r g b, stripDims (setPixel idx r g b s) = stripDims s)
    ∧ (∀ s nb, stripDims (doSmoothing nb s) = stripDims s)
    ∧ (∀ s, stripDims (applyGammaAndBrightness s) = stripDims s)
    ∧ (∀ s, stripDims (showOut s) = stripDims s)
    ∧ (∀ s, stripDims (clear s) = stripDims s)
    ∧ (∀ s g, stripDims (setGamma pw g s) = stripDims s)
    ∧ (∀ s b, stripDims (setBrightness b s) = stripDims s)
    ∧ (∀ s a, stripDims (setSmoothingAlpha a s) = stripDims s)
    ∧ (∀ s cmd, stripDims (handleCommand pw cmd s) = stripDims s) := by
  refine ⟨?_, fun s r g b => stripDims_setAll r g b s,
    fun s idx r g b => stripDims_setPixel idx r g b s,
    fun s nb => stripDims_doSmoothing nb s,
    fun s => stripDims_apply s,
    fun s => stripDims_showOut s,
    fun s => stripDims_clear s,
    fun s g => stripDims_setGamma pw g s,
    fun s b => stripDims_setBrightness b s,
    fun s a => stripDims_setSmoothingAlpha a s,
    fun s cmd => stripDims_handleCommand pw cmd s⟩
  intro n
  unfold mkLEDDriver
  rw [stripDims_showOut, stripDims_clear]
  simp [stripDims, buildGammaLUT]

/-- a 3-LED state with an arbitrary dirty target buffer for the C1
witness. -/
def c1State : LEDDriver :=
  { numLeds_ := 3
    buffer_ := List.replicate 9 7
    lastBuffer_ := List.replicate 9 0
    lastFloatBuffer_ := [9, 0, 255, 3, 7, 250, 1/2, 0, 33]
    gammaLUT_ := (List.range 256).map (fun i : ℕ => idPow ((i : ℚ) / 255) 1 * 255)
    gamma_ := 1
    brightness_ := 1
    smoothingAlpha_ := 1 }

/-- C1 witness: the scenario run on `c1State`. -/
theorem c1_color_end_to_end_witness :
    (handleCommand idPow "COLOR 100 150 200".data c1State).buffer_ =
      [100, 150, 200, 100, 150, 200, 100, 150, 200] :=
  c1_color_end_to_end idPow c1State (fun _ => rfl) rfl rfl rfl rfl rfl rfl
